import Mathlib

/-!
Verification of the momentum ranking and backtest orchestration engine
(`quant.intro`: `factors.py`, `strategy.py`, `data_loader.py`, `backtest.py`).

Floating-point values are modelled as exact rationals; a pandas `NaN`
(which arises from the mean of an empty series and propagates through
arithmetic) is modelled as `none` in `Option ℚ`.  Series columns are
lists of `Option ℚ` so that `dropna` can be modelled faithfully.
-/

/-- A pandas float value: `none` models `NaN`, `some q` a real number. -/
abbrev PVal := Option ℚ

/-- NaN-propagating subtraction, as in pandas float arithmetic. -/
def psub : PVal → PVal → PVal
  | some x, some y => some (x - y)
  | _, _ => none

/-- NaN-propagating addition, as in pandas float arithmetic. -/
def padd : PVal → PVal → PVal
  | some x, some y => some (x + y)
  | _, _ => none

/-- NaN-propagating multiplication by a constant weight. -/
def pmul (v : PVal) (c : ℚ) : PVal :=
  v.map (· * c)

/-- NaN-propagating division.  Every division in the embedded source is
guarded by an explicit `== 0` test on the denominator, so the zero branch
here is unreachable in the functions below. -/
def pdiv : PVal → PVal → PVal
  | some x, some y => if y = 0 then none else some (x / y)
  | _, _ => none

/-- Python `v == 0` on a pandas float: `NaN == 0` is `False`. -/
def pvalIsZero : PVal → Bool
  | some q => q = 0
  | none => false

/-- `Series.dropna()`: keep the non-NaN entries, in order. -/
def dropna (l : List PVal) : List ℚ :=
  l.filterMap id

/-- `Series.mean()`: the arithmetic mean, `NaN` on an empty series
(`pandas` returns `NaN` for the mean of zero elements). -/
def pmean (l : List ℚ) : PVal :=
  if l = [] then none else some (l.sum / l.length)

/-- Python negative indexing (`iloc[i]`): a negative index counts from the
end; an out-of-range index is `none` (an `IndexError` in the source, caught
by the enclosing `except`). -/
def pyIdx (len : ℕ) (i : ℤ) : ℤ :=
  if i < 0 then i + len else i

/-- `closes.iloc[i]` with Python indexing semantics. -/
def pyIloc (l : List ℚ) (i : ℤ) : Option ℚ :=
  if h : 0 ≤ pyIdx l.length i ∧ pyIdx l.length i < (l.length : ℤ) then
    some (l.get ⟨(pyIdx l.length i).toNat, by omega⟩)
  else
    none

/-- One instrument's fetched data frame: the `Close` and `Volume` columns
(always present on fetched data), and the `RSI` column, which is only
present when technical indicators were added (`none` models the column
being absent, as tested by `"RSI" not in data.columns`). -/
structure StockData where
  close : List PVal
  volume : List PVal
  rsi : Option (List PVal)
deriving DecidableEq

/-- `MomentumFactors.calculate_price_momentum` (factors.py:83-131).
`closes = data["Close"].dropna()`; fewer than 2 closes gives `0.0`; in
date mode (with a start date) the first and last closes are used; in days
mode the close `lookback_days` from the end is used, or the first close if
the series is shorter than `lookback_days`; a zero start price gives
`0.0`; an out-of-range `iloc` raises `IndexError`, caught by the
function's `except` which returns `0.0`. -/
def calculate_price_momentum (d : StockData) (lookback_days : ℤ)
    (period_type : String) (start_date : Option ℤ) : ℚ :=
  let closes := dropna d.close
  if closes.length < 2 then 0
  else
    let se : Option (ℚ × ℚ) :=
      if period_type = "date" ∧ start_date.isSome then
        some (closes.headD 0, closes.getLastD 0)
      else
        if (closes.length : ℤ) < lookback_days then
          some (closes.headD 0, closes.getLastD 0)
        else
          match pyIloc closes (-lookback_days) with
          | some s => some (s, closes.getLastD 0)
          | none => none
    match se with
    | none => 0
    | some (s, e) => if s ≠ 0 then (e - s) / s else 0

/-- `MomentumFactors.calculate_volume_momentum` (factors.py:133-151).
`volumes = data["Volume"].dropna()`; a series strictly shorter than the
window gives `0.0`; `recent = volumes.tail(window).mean()`,
`historical = volumes.head(len - window).mean()`; `historical == 0` gives
`0.0` (false for NaN); otherwise `(recent - historical) / historical`. -/
def calculate_volume_momentum (d : StockData) (window : ℕ) : PVal :=
  let volumes := dropna d.volume
  if volumes.length < window then some 0
  else
    let recent := pmean (volumes.drop (volumes.length - window))
    let historical := pmean (volumes.take (volumes.length - window))
    if pvalIsZero historical then some 0
    else pdiv (psub recent historical) historical

/-- `MomentumFactors.calculate_rsi_momentum` (factors.py:153-172).
`0.0` if the `RSI` column is absent or holds no non-NaN value; otherwise
`(latest_rsi - 50) / 50`. -/
def calculate_rsi_momentum (d : StockData) : ℚ :=
  match d.rsi with
  | none => 0
  | some col =>
    let rsi_values := dropna col
    if rsi_values = [] then 0
    else ((rsi_values.getLastD 0) - 50) / 50

/-- `MomentumFactors.calculate_composite_momentum` (factors.py:174-214):
`price * 0.7 + volume * 0.2 + rsi * 0.1`, with the volume window fixed
at 20. -/
def calculate_composite_momentum (d : StockData) (lookback_days : ℤ)
    (period_type : String) (start_date : Option ℤ) : PVal :=
  let price := calculate_price_momentum d lookback_days period_type start_date
  let volume := calculate_volume_momentum d 20
  let rsi := calculate_rsi_momentum d
  padd (padd (pmul (some price) (7/10)) (pmul volume (1/5)))
    (pmul (some rsi) (1/10))

/-! ### Strategy: scoring and ranking (`strategy.py`) -/

/-- The mutable fields of a `MomentumStrategy` instance that the scoring
and selection methods read: the resolved window, the configured `top_n`,
the requested ticker list, the fetched data (a Python dict, modelled as
an association list in insertion order) and the cached score map. -/
structure StrategyState where
  lookback_days : ℤ
  period_type : String
  start_date : Option ℤ
  top_n : ℕ
  tickers : List String
  stock_data : List (String × StockData)
  momentum_scores : List (String × ℚ)

/-- `MomentumStrategy._validate_stock_data` (strategy.py:147-187): reads
`len(data["Close"])` (the raw column, before any `dropna`).  Date mode
requires at least 2 records; days mode with `lookback_days ≥ 365`
requires at least 30; otherwise at least `lookback_days`. -/
def validate_stock_data (s : StrategyState) (d : StockData) : Bool :=
  let n : ℤ := d.close.length
  if s.period_type = "date" ∧ s.start_date.isSome then
    decide (2 ≤ n)
  else if 365 ≤ s.lookback_days then
    decide (30 ≤ n)
  else
    decide (s.lookback_days ≤ n)

/-- The loop body of `MomentumStrategy.calculate_momentum_scores`
(strategy.py:110-144): for each requested ticker in order, skip it when
its data is missing or fails validation, otherwise score it with
`calculate_price_momentum` (note: the price component alone, not
`calculate_composite_momentum`). -/
def momentum_scores_of (s : StrategyState) : List (String × ℚ) :=
  s.tickers.filterMap fun t =>
    (List.lookup t s.stock_data).bind fun d =>
      if validate_stock_data s d then
        some (t, calculate_price_momentum d s.lookback_days s.period_type
          s.start_date)
      else
        none

/-- `MomentumStrategy.calculate_momentum_scores` (strategy.py:100-145):
raises `ValueError("请先获取股票数据")` when no data was fetched, else
returns the score map built by the loop. -/
def calculate_momentum_scores (s : StrategyState) :
    Except String (List (String × ℚ)) :=
  if s.stock_data = [] then .error "请先获取股票数据"
  else .ok (momentum_scores_of s)

/-- Python's `sorted(·, key=lambda x: x[1], reverse=True)` restricted to
score pairs: a stable descending insertion.  An element is placed before
the first existing element whose score is not strictly greater, so
earlier elements stay before later elements of equal score (the
documented stability of Python's sort, which `reverse=True` keeps). -/
def insertDesc (x : String × ℚ) : List (String × ℚ) → List (String × ℚ)
  | [] => [x]
  | y :: ys => if y.2 > x.2 then y :: insertDesc x ys else x :: y :: ys

/-- Stable sort by score descending, Python `sorted(..., reverse=True)`. -/
def sortedDesc : List (String × ℚ) → List (String × ℚ)
  | [] => []
  | x :: xs => insertDesc x (sortedDesc xs)

/-- The body of `MomentumStrategy.get_top_stocks` (strategy.py:196-210)
before its `except` handler: recompute the scores when the cached map is
empty (propagating the `ValueError` from `calculate_momentum_scores`),
raise `ValueError("无法计算任何股票的动量得分")` when the map is still
empty, otherwise sort descending and truncate to `top_n`. -/
def get_top_stocks_inner (s : StrategyState) :
    Except String (List (String × ℚ)) :=
  match (if s.momentum_scores = [] then calculate_momentum_scores s
      else .ok s.momentum_scores) with
  | .error e => .error e
  | .ok scores =>
    if scores = [] then .error "无法计算任何股票的动量得分"
    else .ok ((sortedDesc scores).take s.top_n)

/-- `MomentumStrategy.get_top_stocks` (strategy.py:189-214): the `except`
handler turns any raised error into an empty list. -/
def get_top_stocks (s : StrategyState) : List (String × ℚ) :=
  match get_top_stocks_inner s with
  | .ok l => l
  | .error _ => []

/-! ### Lookback resolution (`strategy.py:_parse_lookback_period`) -/

/-- The `lookback_period` constructor argument: a day count (Python
`int`) or a date string.  For the string case the embedding carries the
result of `pd.to_datetime` together with the elapsed day count
`(datetime.now() - start_date).days`, both determined by the external
clock and parser. -/
inductive LookbackSpec where
  | days (n : ℤ)
  | dateStr (raw : String) (parsed : Option (ℤ × ℤ))

/-- The resolved window fields set by `_parse_lookback_period`. -/
structure Window where
  lookback_days : ℤ
  start_date : Option ℤ
  period_type : String
deriving DecidableEq

/-- `MomentumStrategy._parse_lookback_period` (strategy.py:46-63): an
integer is stored unchanged as `lookback_days` with mode `"days"` and no
start date — no positivity check; a string is parsed as a date (yielding
the anchor timestamp and the elapsed days) or raises `ValueError`. -/
def parse_lookback_period : LookbackSpec → Except String Window
  | .days n => .ok ⟨n, none, "days"⟩
  | .dateStr raw parsed =>
    match parsed with
    | some (ts, actual_days) => .ok ⟨actual_days, some ts, "date"⟩
    | none => .error ("无效的时间戳格式: " ++ raw)

/-! ### Data period selection (`data_loader.py`) -/

/-- `DataPeriodCalculator.calculate_period` (data_loader.py:27-60).
`required_days = int(lookback_days * 1.5)` — Python `int(...)` truncates
toward zero, which is `Int.tdiv (3 * n) 2` — followed by a chain of
threshold tests selecting a provider period string. -/
def calculate_period (lookback_days : ℤ) : String :=
  let required_days := Int.tdiv (3 * lookback_days) 2
  if required_days ≤ 5 then "5d"
  else if required_days ≤ 30 then "1mo"
  else if required_days ≤ 90 then "3mo"
  else if required_days ≤ 180 then "6mo"
  else if required_days ≤ 365 then "1y"
  else if required_days ≤ 730 then "2y"
  else if required_days ≤ 1095 then "5y"
  else if required_days ≤ 1825 then "5y"
  else if required_days ≤ 3650 then "10y"
  else "max"

/-- The length in calendar days of the history range denoted by each
provider period string; "max" (all available history) is modelled as a
bound larger than every finite range. -/
def periodRangeDays (p : String) : ℕ :=
  if p = "5d" then 5
  else if p = "1mo" then 30
  else if p = "3mo" then 90
  else if p = "6mo" then 180
  else if p = "1y" then 365
  else if p = "2y" then 730
  else if p = "5y" then 1825
  else if p = "10y" then 3650
  else if p = "max" then 100000
  else 0

/-- The provider query issued by a fetch: an explicit start/end date
range, or a period string (where `"max"` requests all available
history). -/
inductive FetchQuery where
  | dateRange (start : ℤ)
  | periodQuery (p : String)
deriving DecidableEq

/-- The first provider query issued by
`StockDataLoader.fetch_single_stock` (data_loader.py:94-142): date mode
with a start date downloads an explicit date range; otherwise
`lookback_days >= 365` forces `period="max"`; otherwise the supplied
period string is used. -/
def fetch_single_stock_query (period_type : String) (start_date : Option ℤ)
    (lookback_days : ℤ) (period : String) : FetchQuery :=
  if h : period_type = "date" ∧ start_date.isSome then
    .dateRange (start_date.get h.2)
  else if 365 ≤ lookback_days then
    .periodQuery "max"
  else
    .periodQuery period

/-! ### Backtest runner and batch engine (`backtest.py`) -/

/-- `BacktestResult` (backtest.py:57-86), without the wall-clock
timestamp field. -/
structure BacktestResult where
  period : ℤ ⊕ String
  period_name : String
  success : Bool
  chart_path : Option String
  top_stocks : List (String × ℚ)
  error_message : Option String
deriving DecidableEq

/-- A failed `BacktestResult`, as constructed at the failure sites of
`run_single_backtest` and `run_batch_backtest`. -/
def failedResult (period : ℤ ⊕ String) (period_name : String)
    (msg : String) : BacktestResult :=
  ⟨period, period_name, false, none, [], some msg⟩

/-- `SingleBacktestRunner.run_single_backtest` (backtest.py:92-167),
parameterised by the behaviour of its collaborators: `parsed` is the
outcome of the strategy constructor's lookback resolution (a raised
`ValueError` is caught by the outer `except`); `fetched` is the fetched
data map, or the exception raised when both the async fetch and the sync
fallback fail (also caught by the outer `except`); `saved_path` is the
string returned by `create_visualization` (`""` when chart creation
failed, since that method catches its own exceptions).  The result is
`none` exactly when the Python function falls off the end of its `try`
block and implicitly returns `None`. -/
def run_single_backtest (period : ℤ ⊕ String) (period_name : String)
    (parsed : Except String Window)
    (fetched : Except String (List (String × StockData)))
    (tickers : List String) (top_n : ℕ) (saved_path : String) :
    Option BacktestResult :=
  match parsed with
  | .error e => some (failedResult period period_name e)
  | .ok w =>
    match fetched with
    | .error e => some (failedResult period period_name e)
    | .ok data =>
      let s : StrategyState :=
        ⟨w.lookback_days, w.period_type, w.start_date, top_n, tickers,
          data, []⟩
      let top_stocks := get_top_stocks s
      if top_stocks ≠ [] then
        if saved_path ≠ "" then
          some ⟨period, period_name, true, some saved_path, top_stocks, none⟩
        else
          none
      else
        some (failedResult period period_name "无有效推荐股票")

/-- The post-`gather` loop of `BatchBacktestEngine.run_batch_backtest`
(backtest.py:220-239): `asyncio.gather(*tasks, return_exceptions=True)`
yields one entry per task in submission order — an outcome or a raised
exception — and each exception is replaced by a failed result carrying
that task's period and name. -/
def run_batch_backtest (periods : List ((ℤ ⊕ String) × String))
    (gathered : List (Except String BacktestResult)) : List BacktestResult :=
  (periods.zip gathered).map fun pr =>
    match pr.2 with
    | .error e => failedResult pr.1.1 pr.1.2 e
    | .ok r => r

/-- The summary fields of `BatchBacktestEngine.get_summary`
(backtest.py:241-264). -/
structure BatchSummary where
  total_tests : ℕ
  successful_tests : ℕ
  failed_tests : ℕ
  success_rate : ℚ
deriving DecidableEq

/-- `BatchBacktestEngine.get_summary` (backtest.py:241-264):
`success_rate = successful / total`, `0` when the result list is
empty. -/
def get_summary (results : List BacktestResult) : BatchSummary :=
  let successful := results.countP (·.success)
  let failed := results.countP (fun r => !r.success)
  { total_tests := results.length
    successful_tests := successful
    failed_tests := failed
    success_rate :=
      if results = [] then 0 else (successful : ℚ) / results.length }

/-- The `appearances` counter of
`BacktestAnalyzer.analyze_stock_performance` (backtest.py:329-342) for
one ticker: each occurrence of the ticker in the `top_stocks` of a
successful result with a non-empty selection increments it. -/
def analyze_appearances (t : String) (results : List BacktestResult) : ℕ :=
  (results.map fun r =>
    if r.success && !r.top_stocks.isEmpty then
      (r.top_stocks.map Prod.fst).count t
    else 0).sum

/-- The `consistency` field of
`BacktestAnalyzer.analyze_stock_performance` (backtest.py:366-368):
`appearances / len([r for r in results if r.success])`. -/
def analyze_consistency (t : String) (results : List BacktestResult) : ℚ :=
  (analyze_appearances t results : ℚ) / (results.countP (·.success) : ℚ)

/-! ### Concrete evaluation inputs -/

/-- Three bars with closes `[100, 110, 121]`, flat volume, no RSI
column. -/
def demoData : StockData :=
  ⟨[some 100, some 110, some 121], [some 1, some 1, some 1], none⟩

/-- A freshly fetched strategy over one ticker, a 2-day lookback in days
mode, `top_n = 1`, before any score has been cached. -/
def demoState : StrategyState :=
  ⟨2, "days", none, 1, ["A"], [("A", demoData)], []⟩

/-- A series whose volume column has exactly 20 non-NaN entries — the
length equals the default volume window. -/
def demoEqualWindowData : StockData :=
  ⟨[], List.replicate 20 (some 1), none⟩

/-- One fetched ticker whose series is too short to validate against a
5-day lookback, leaving the score map empty. -/
def demoShortData : List (String × StockData) :=
  [("A", ⟨[some 100], [], none⟩)]

/-- A cached score map with a tie between the first and last entries. -/
def demoRankState : StrategyState :=
  ⟨0, "days", none, 2, [], [], [("A", 1), ("B", 2), ("C", 1)]⟩

/-- Two periods for a batch: one task outcome and one raised
exception. -/
def demoPeriods : List ((ℤ ⊕ String) × String) :=
  [(.inl 30, "P1"), (.inl 60, "P2")]

/-- Gathered task results for `demoPeriods`: a success and an
exception. -/
def demoGathered : List (Except String BacktestResult) :=
  [.ok ⟨.inl 30, "P1", true, some "c.png", [("X", 1/20), ("Y", 1/50)], none⟩,
   .error "boom"]

/-- One succeeded outcome selecting X and Y, and one failed outcome. -/
def demoBatch : List BacktestResult :=
  [⟨.inl 30, "P1", true, some "c.png", [("X", 1/20), ("Y", 1/50)], none⟩,
   failedResult (.inl 60) "P2" "NoData"]

/-- A generic threshold step function: the value of the first threshold
the argument does not exceed, the default past the last threshold.  Used
to reason uniformly about the `calculate_period` threshold chain. -/
def stepFun : List (ℤ × ℕ) → ℕ → ℤ → ℕ
  | [], dflt, _ => dflt
  | (t, v) :: rest, dflt, x =>
    if x ≤ t then v else stepFun rest dflt x

/-! ### Helper lemmas about the stable descending sort -/

theorem insertDesc_perm (x : String × ℚ) (l : List (String × ℚ)) :
    List.Perm (insertDesc x l) (x :: l) := by
  induction l with
  | nil => exact List.Perm.refl _
  | cons y ys ih =>
    by_cases h : y.2 > x.2
    · rw [show insertDesc x (y :: ys) = y :: insertDesc x ys by
        simp [insertDesc, h]]
      exact (ih.cons y).trans (List.Perm.swap x y ys)
    · rw [show insertDesc x (y :: ys) = x :: y :: ys by simp [insertDesc, h]]

theorem sortedDesc_perm (l : List (String × ℚ)) :
    List.Perm (sortedDesc l) l := by
  induction l with
  | nil => exact List.Perm.refl _
  | cons x xs ih => exact (insertDesc_perm x (sortedDesc xs)).trans (ih.cons x)

theorem insertDesc_pairwise (x : String × ℚ) {l : List (String × ℚ)}
    (h : l.Pairwise (fun a b => b.2 ≤ a.2)) :
    (insertDesc x l).Pairwise (fun a b => b.2 ≤ a.2) := by
  induction l with
  | nil => simp [insertDesc]
  | cons y ys ih =>
    rw [List.pairwise_cons] at h
    by_cases hxy : y.2 > x.2
    · rw [show insertDesc x (y :: ys) = y :: insertDesc x ys by
        simp [insertDesc, hxy]]
      rw [List.pairwise_cons]
      refine ⟨fun z hz => ?_, ih h.2⟩
      rcases List.mem_cons.1 (((insertDesc_perm x ys).mem_iff).1 hz) with
        hzx | hzys
      · exact hzx ▸ le_of_lt hxy
      · exact h.1 z hzys
    · rw [show insertDesc x (y :: ys) = x :: y :: ys by simp [insertDesc, hxy]]
      rw [List.pairwise_cons]
      refine ⟨fun z hz => ?_, List.pairwise_cons.2 h⟩
      rcases List.mem_cons.1 hz with hzy | hzys
      · exact hzy ▸ le_of_not_lt hxy
      · exact le_trans (h.1 z hzys) (le_of_not_lt hxy)

theorem sortedDesc_pairwise (l : List (String × ℚ)) :
    (sortedDesc l).Pairwise (fun a b => b.2 ≤ a.2) := by
  induction l with
  | nil => simp [sortedDesc]
  | cons x xs ih => exact insertDesc_pairwise x ih

theorem insertDesc_filter (x : String × ℚ) (l : List (String × ℚ)) (s : ℚ) :
    (insertDesc x l).filter (fun p => p.2 = s) =
      if x.2 = s then x :: l.filter (fun p => p.2 = s)
      else l.filter (fun p => p.2 = s) := by
  induction l with
  | nil => by_cases h : x.2 = s <;> simp [insertDesc, List.filter, h]
  | cons y ys ih =>
    by_cases hxy : y.2 > x.2
    · rw [show insertDesc x (y :: ys) = y :: insertDesc x ys by
        simp [insertDesc, hxy]]
      by_cases hy : y.2 = s
      · have hx : ¬ x.2 = s := by rw [← hy] at *; exact ne_of_lt hxy
        simp [List.filter_cons, hy, hx, ih]
      · simp [List.filter_cons, hy, ih]
    · rw [show insertDesc x (y :: ys) = x :: y :: ys by simp [insertDesc, hxy]]
      by_cases hx : x.2 = s <;> simp [List.filter_cons, hx]

theorem sortedDesc_filter (l : List (String × ℚ)) (s : ℚ) :
    (sortedDesc l).filter (fun p => p.2 = s) = l.filter (fun p => p.2 = s) := by
  induction l with
  | nil => rfl
  | cons x xs ih =>
    rw [show sortedDesc (x :: xs) = insertDesc x (sortedDesc xs) from rfl,
      insertDesc_filter, ih]
    by_cases hx : x.2 = s <;> simp [List.filter_cons, hx]

/-- C10: resolving an integer lookback specification succeeds for every
integer `n`, including `0` and negative values, storing `lookback_days
= n` unchanged with mode `"days"` and no anchor date — no positivity
check happens at the public interface. -/
theorem lookback_resolution_C10 (n : ℤ) :
    parse_lookback_period (.days n) = .ok ⟨n, none, "days"⟩ :=
  rfl

/-- C6: for every strategy whose cached score map is non-empty and any
`top_n`, selection does not fail: it returns the stable descending sort
truncated to `top_n`, whose length is `min top_n (number of scores)`,
which is sorted non-increasing by score, and in which the entries of any
fixed score form a prefix of the equally-scored entries of the input, in
input order (stability). -/
theorem ranking_selector_C6 (s : StrategyState)
    (h : s.momentum_scores ≠ []) :
    get_top_stocks_inner s =
      .ok ((sortedDesc s.momentum_scores).take s.top_n) ∧
    ((sortedDesc s.momentum_scores).take s.top_n).length =
      min s.top_n s.momentum_scores.length ∧
    (((sortedDesc s.momentum_scores).take s.top_n).Pairwise
      (fun a b => b.2 ≤ a.2)) ∧
    (∀ q : ℚ, ∃ rest,
      ((sortedDesc s.momentum_scores).take s.top_n).filter
          (fun p => p.2 = q) ++ rest =
        s.momentum_scores.filter (fun p => p.2 = q)) := by
  refine ⟨?_, ?_, ?_, ?_⟩
  · rw [get_top_stocks_inner]
    simp [if_neg h]
  · rw [List.length_take, (sortedDesc_perm s.momentum_scores).length_eq]
  · exact (sortedDesc_pairwise s.momentum_scores).sublist
      (List.take_sublist _ _)
  · intro q
    refine ⟨((sortedDesc s.momentum_scores).drop s.top_n).filter
      (fun p => p.2 = q), ?_⟩
    rw [← List.filter_append, List.take_append_drop, sortedDesc_filter]

theorem ranking_selector_C6_witness :
    get_top_stocks_inner demoRankState = .ok [("B", 2), ("A", 1)] := by
  have h := ranking_selector_C6 demoRankState (by decide)
  rw [h.1]
  with_unfolding_all rfl

theorem mem_momentum_scores_of {s : StrategyState} {p : String × ℚ}
    (hp : p ∈ momentum_scores_of s) :
    ∃ d, List.lookup p.1 s.stock_data = some d ∧
      p.2 = calculate_price_momentum d s.lookback_days s.period_type
        s.start_date := by
  rw [momentum_scores_of, List.mem_filterMap] at hp
  obtain ⟨t, _, ht⟩ := hp
  cases hl : List.lookup t s.stock_data with
  | none => rw [hl] at ht; exact absurd ht (by simp)
  | some d =>
    rw [hl, Option.some_bind] at ht
    by_cases hv : validate_stock_data s d
    · rw [if_pos hv] at ht
      obtain ⟨rfl⟩ := Option.some.inj ht
      exact ⟨d, hl, rfl⟩
    · rw [if_neg hv] at ht
      exact absurd ht (by simp)

/-- C1 (amended): on a freshly fetched strategy (no cached scores — the
state in which every task runs selection), every `(ticker, score)` pair
of the returned selection carries exactly the ticker's price momentum of
its fetched series: `calculate_momentum_scores` never invokes
`calculate_composite_momentum`, so the volume and oscillator components
never enter the ranked scores. -/
theorem selection_score_C1_amended (s : StrategyState)
    (hfresh : s.momentum_scores = []) :
    ∀ p ∈ get_top_stocks s, ∃ d, List.lookup p.1 s.stock_data = some d ∧
      p.2 = calculate_price_momentum d s.lookback_days s.period_type
        s.start_date := by
  intro p hp
  rw [get_top_stocks] at hp
  by_cases hsd : s.stock_data = []
  · rw [show get_top_stocks_inner s = .error "请先获取股票数据" by
      simp [get_top_stocks_inner, calculate_momentum_scores, hfresh, hsd]]
      at hp
    exact absurd hp (by simp)
  · by_cases hsc : momentum_scores_of s = []
    · rw [show get_top_stocks_inner s = .error "无法计算任何股票的动量得分" by
        simp [get_top_stocks_inner, calculate_momentum_scores, hfresh, hsd,
          hsc]] at hp
      exact absurd hp (by simp)
    · rw [show get_top_stocks_inner s =
          .ok ((sortedDesc (momentum_scores_of s)).take s.top_n) by
        simp [get_top_stocks_inner, calculate_momentum_scores, hfresh, hsd,
          hsc]] at hp
      exact mem_momentum_scores_of
        ((sortedDesc_perm _).mem_iff.1 (List.mem_of_mem_take hp))

theorem selection_score_C1_amended_witness :
    List.lookup "A" demoState.stock_data = some demoData ∧
    (1 : ℚ)/10 = calculate_price_momentum demoData 2 "days" none := by
  obtain ⟨d, hd, hp⟩ :=
    selection_score_C1_amended demoState rfl ("A", 1/10)
      (by with_unfolding_all decide)
  have hdd : d = demoData := by
    have h2 : some demoData = some d := by
      rw [← hd]; with_unfolding_all rfl
    exact (Option.some.inj h2).symm
  subst hdd
  exact ⟨hd, hp⟩

/-- C1 (counterexample): a task over the three-bar series `demoData`
with a 2-day lookback succeeds with the selection `[("A", 1/10)]`, where
`1/10` is exactly the price momentum; the composite momentum of the same
series is `7/100`, and the two differ by far more than the `1e-9`
tolerance — the ranked score is the price component alone, not the
composite. -/
theorem selection_score_C1_counterexample :
    get_top_stocks demoState = [("A", 1/10)] ∧
    calculate_price_momentum demoData 2 "days" none = 1/10 ∧
    calculate_composite_momentum demoData 2 "days" none = some (7/100) ∧
    ¬ |(1 : ℚ)/10 - 7/100| ≤ 1/1000000000 := by
  refine ⟨by with_unfolding_all rfl, by with_unfolding_all rfl,
    by with_unfolding_all rfl, ?_⟩
  rw [show (1 : ℚ)/10 - 7/100 = 3/100 by norm_num,
    abs_of_pos (by norm_num : (0:ℚ) < 3/100)]
  norm_num

/-- C2 (code bug): with a well-formed period, a successful fetch and a
non-empty selection, a chart-save failure (`create_visualization`
returning `""`) makes `run_single_backtest` fall off the end of its
`try` block: the call returns Python `None` (modelled as `none`) instead
of a `BacktestResult`. -/
theorem run_single_backtest_none_C2_bug :
    run_single_backtest (.inl 2) "test" (.ok ⟨2, none, "days"⟩)
      (.ok [("A", demoData)]) ["A"] 1 "" = none := by
  with_unfolding_all rfl

/-- C5: whenever the fetched data is non-empty but scoring produces an
empty ticker-to-score mapping, the selection step raises the no-scores
`ValueError` (it does not return an empty selection as an ordinary
success), and the enclosing task produces a failed outcome. -/
theorem noscores_failure_C5 (period : ℤ ⊕ String) (period_name : String)
    (w : Window) (data : List (String × StockData)) (tickers : List String)
    (top_n : ℕ) (saved_path : String)
    (hdata : data ≠ [])
    (hscores : momentum_scores_of
      ⟨w.lookback_days, w.period_type, w.start_date, top_n, tickers,
        data, []⟩ = []) :
    get_top_stocks_inner
      ⟨w.lookback_days, w.period_type, w.start_date, top_n, tickers,
        data, []⟩ = .error "无法计算任何股票的动量得分" ∧
    run_single_backtest period period_name (.ok w) (.ok data) tickers
      top_n saved_path =
      some (failedResult period period_name "无有效推荐股票") := by
  have hinner : get_top_stocks_inner
      ⟨w.lookback_days, w.period_type, w.start_date, top_n, tickers,
        data, []⟩ = .error "无法计算任何股票的动量得分" := by
    simp [get_top_stocks_inner, calculate_momentum_scores, hdata, hscores]
  refine ⟨hinner, ?_⟩
  rw [run_single_backtest]
  have htop : get_top_stocks
      ⟨w.lookback_days, w.period_type, w.start_date, top_n, tickers,
        data, []⟩ = [] := by
    rw [get_top_stocks, hinner]
  simp [htop]

theorem noscores_failure_C5_witness :
    run_single_backtest (.inl 5) "P" (.ok ⟨5, none, "days"⟩)
      (.ok demoShortData) ["A"] 3 "x.png" =
      some (failedResult (.inl 5) "P" "无有效推荐股票") :=
  (noscores_failure_C5 (.inl 5) "P" ⟨5, none, "days"⟩ demoShortData ["A"]
    3 "x.png" (by with_unfolding_all decide) (by with_unfolding_all rfl)).2

theorem psub_none_right (a : PVal) : psub a none = none := by
  cases a <;> rfl

theorem pdiv_none_right (a : PVal) : pdiv a none = none := by
  cases a <;> rfl

theorem pmean_ne_nil {l : List ℚ} (h : l ≠ []) :
    pmean l = some (l.sum / l.length) := by
  rw [pmean, if_neg h]

/-- C3 (counterexample): a volume series of length exactly 20 (the
window): the prior remainder is empty, its pandas mean is NaN, `NaN ==
0` is false, and the result is NaN — not `0.0` as the claim states. -/
theorem volume_momentum_C3_counterexample :
    (dropna demoEqualWindowData.volume).length = 20 ∧
    calculate_volume_momentum demoEqualWindowData 20 = none ∧
    calculate_volume_momentum demoEqualWindowData 20 ≠ some 0 := by
  refine ⟨by with_unfolding_all rfl, by with_unfolding_all rfl, ?_⟩
  rw [show calculate_volume_momentum demoEqualWindowData 20 = none by
    with_unfolding_all rfl]
  simp

/-- C3 (amended): `calculate_volume_momentum` never raises; it returns
`0.0` whenever the (non-NaN) series is strictly shorter than the window
or the prior-volume mean is a real number equal to `0`, and a real
number whenever the series is strictly longer than a positive window
with a non-zero prior mean; but when the series length exactly equals
the window the empty prior remainder has mean NaN, `NaN == 0` is false,
and the result is NaN rather than `0.0`. -/
theorem volume_momentum_C3_amended (d : StockData) (w : ℕ) :
    ((dropna d.volume).length < w →
      calculate_volume_momentum d w = some 0) ∧
    (∀ h : ℚ,
      pmean ((dropna d.volume).take ((dropna d.volume).length - w)) =
        some h → h = 0 → calculate_volume_momentum d w = some 0) ∧
    ((dropna d.volume).length = w →
      calculate_volume_momentum d w = none) ∧
    (0 < w → w < (dropna d.volume).length →
      pvalIsZero (pmean ((dropna d.volume).take
        ((dropna d.volume).length - w))) = false →
      ∃ q, calculate_volume_momentum d w = some q) := by
  refine ⟨?_, ?_, ?_, ?_⟩
  · intro hlt
    rw [calculate_volume_momentum]
    simp only [if_pos hlt]
  · intro h hm h0
    by_cases hlt : (dropna d.volume).length < w
    · rw [calculate_volume_momentum]; simp only [if_pos hlt]
    · rw [calculate_volume_momentum]
      simp only [if_neg hlt]
      have hz : pvalIsZero (pmean ((dropna d.volume).take
          ((dropna d.volume).length - w))) = true := by
        rw [hm, h0]; rfl
      rw [if_pos hz]
  · intro heq
    rw [calculate_volume_momentum]
    simp only [if_neg (by omega : ¬ (dropna d.volume).length < w)]
    have htake : (dropna d.volume).take ((dropna d.volume).length - w)
        = [] := by
      rw [heq]; simp
    rw [htake]
    rw [show pmean [] = none from rfl]
    rw [show pvalIsZero none = false from rfl]
    simp only [Bool.false_eq_true, if_false]
    rw [psub_none_right, show pdiv none none = none from rfl]
  · intro hw hlen hz
    rw [calculate_volume_momentum]
    simp only [if_neg (by omega : ¬ (dropna d.volume).length < w)]
    rw [if_neg (by rw [hz]; simp)]
    have hhist : (dropna d.volume).take ((dropna d.volume).length - w)
        ≠ [] := by
      have : ((dropna d.volume).take ((dropna d.volume).length - w)).length
          = (dropna d.volume).length - w := by
        rw [List.length_take]; omega
      intro hcon
      rw [hcon] at this
      simp at this
      omega
    have hrec : (dropna d.volume).drop ((dropna d.volume).length - w)
        ≠ [] := by
      have : ((dropna d.volume).drop ((dropna d.volume).length - w)).length
          = w := by
        rw [List.length_drop]; omega
      intro hcon
      rw [hcon] at this
      simp at this
      omega
    rw [pmean_ne_nil hhist, pmean_ne_nil hrec]
    have hne : ((dropna d.volume).take ((dropna d.volume).length - w)).sum /
        (((dropna d.volume).take ((dropna d.volume).length - w)).length : ℚ)
        ≠ 0 := by
      intro hcon
      rw [pmean_ne_nil hhist, hcon] at hz
      simp [pvalIsZero] at hz
    rw [psub, pdiv, if_neg hne]
    exact ⟨_, rfl⟩

theorem volume_momentum_C3_amended_witness :
    calculate_volume_momentum (⟨[], [some 1], none⟩ : StockData) 2 = some 0 ∧
    calculate_volume_momentum demoEqualWindowData 20 = none :=
  ⟨(volume_momentum_C3_amended ⟨[], [some 1], none⟩ 2).1
      (by with_unfolding_all decide),
   (volume_momentum_C3_amended demoEqualWindowData 20).2.2.1
      (by with_unfolding_all rfl)⟩

theorem pyIloc_neg (l : List ℚ) (k : ℤ) (h1 : 1 ≤ k)
    (h2 : k ≤ (l.length : ℤ)) :
    pyIloc l (-k) = some (l.getD (l.length - k.toNat) 0) := by
  have hidx : pyIdx l.length (-k) = (l.length : ℤ) - k := by
    rw [pyIdx, if_pos (by omega)]; ring
  have hb : 0 ≤ pyIdx l.length (-k) ∧
      pyIdx l.length (-k) < (l.length : ℤ) := by
    rw [hidx]; omega
  rw [pyIloc, dif_pos hb]
  have hnat : (pyIdx l.length (-k)).toNat = l.length - k.toNat := by
    rw [hidx]; omega
  rw [List.getD_eq_get l 0 (by omega : l.length - k.toNat < l.length)]
  have hfin : (⟨(pyIdx l.length (-k)).toNat, by omega⟩ : Fin l.length) =
      ⟨l.length - k.toNat, by omega⟩ := Fin.ext hnat
  rw [hfin]

/-- C7: for every series with at least 2 valid (non-NaN) closes and
every `lookback_days ≥ 1`: in date mode (with an anchor date) the
momentum is the guarded relative change from the first to the last
close; in days mode it is the guarded relative change from the close
`lookback_days` from the end when the series has at least
`lookback_days` bars, and from the first close otherwise; a start price
of exactly `0` yields `0.0` in every case. -/
theorem price_momentum_C7 (d : StockData) (lb : ℤ) (ts : ℤ)
    (h2 : 2 ≤ (dropna d.close).length) (hlb : 1 ≤ lb) :
    (calculate_price_momentum d lb "date" (some ts) =
      (if (dropna d.close).headD 0 = 0 then 0
       else ((dropna d.close).getLastD 0 - (dropna d.close).headD 0) /
         (dropna d.close).headD 0)) ∧
    (lb ≤ ((dropna d.close).length : ℤ) →
      calculate_price_momentum d lb "days" none =
      (if (dropna d.close).getD ((dropna d.close).length - lb.toNat) 0 = 0
       then 0
       else ((dropna d.close).getLastD 0 -
           (dropna d.close).getD ((dropna d.close).length - lb.toNat) 0) /
         (dropna d.close).getD ((dropna d.close).length - lb.toNat) 0)) ∧
    (((dropna d.close).length : ℤ) < lb →
      calculate_price_momentum d lb "days" none =
      (if (dropna d.close).headD 0 = 0 then 0
       else ((dropna d.close).getLastD 0 - (dropna d.close).headD 0) /
         (dropna d.close).headD 0)) := by
  have hnot2 : ¬ (dropna d.close).length < 2 := by omega
  refine ⟨?_, ?_, ?_⟩
  · rw [calculate_price_momentum]
    simp only [if_neg hnot2, if_pos (by simp : ("date" = "date" ∧
      (some ts).isSome))]
    by_cases h0 : (dropna d.close).headD 0 = 0 <;> simp [h0]
  · intro hle
    rw [calculate_price_momentum]
    simp only [if_neg hnot2,
      if_neg (by simp : ¬ ("days" = "date" ∧ (none : Option ℤ).isSome)),
      if_neg (by omega : ¬ ((dropna d.close).length : ℤ) < lb),
      pyIloc_neg (dropna d.close) lb hlb hle]
    by_cases h0 : (dropna d.close).getD
        ((dropna d.close).length - lb.toNat) 0 = 0 <;> simp [h0]
  · intro hgt
    rw [calculate_price_momentum]
    simp only [if_neg hnot2,
      if_neg (by simp : ¬ ("days" = "date" ∧ (none : Option ℤ).isSome)),
      if_pos hgt]
    by_cases h0 : (dropna d.close).headD 0 = 0 <;> simp [h0]

theorem price_momentum_C7_witness :
    calculate_price_momentum demoData 2 "days" none = 1/10 := by
  have h := (price_momentum_C7 demoData 2 0 (by with_unfolding_all decide)
    (by decide)).2.1 (by with_unfolding_all decide)
  rw [h]
  with_unfolding_all rfl

theorem countP_not_add (p : BacktestResult → Bool)
    (l : List BacktestResult) :
    l.countP p + l.countP (fun a => !(p a)) = l.length := by
  induction l with
  | nil => rfl
  | cons x xs ih =>
    rw [List.countP_cons, List.countP_cons]
    cases hpx : p x <;> simp [hpx] <;> omega

/-- C4: for every batch whose gathered per-task results (outcomes or
raised exceptions, in task-submission order, as `asyncio.gather` with
`return_exceptions=True` yields them) match the period list in length,
the processed outcome list has exactly one entry per task, the entry at
index `i` is task `i`'s outcome (its exception replaced by a failed
result carrying task `i`'s period), and the summary's success rate is
`(N - M) / N` for `N` tasks of which `M` failed, with rate `0` when
`N = 0`. -/
theorem batch_aggregation_C4 (periods : List ((ℤ ⊕ String) × String))
    (gathered : List (Except String BacktestResult))
    (hlen : periods.length = gathered.length) :
    (run_batch_backtest periods gathered).length = gathered.length ∧
    (∀ (i : ℕ) (h1 : i < periods.length) (h2 : i < gathered.length)
      (h3 : i < (run_batch_backtest periods gathered).length),
      (run_batch_backtest periods gathered).get ⟨i, h3⟩ =
        match gathered.get ⟨i, h2⟩ with
        | .error e => failedResult (periods.get ⟨i, h1⟩).1
            (periods.get ⟨i, h1⟩).2 e
        | .ok r => r) ∧
    (get_summary (run_batch_backtest periods gathered)).success_rate =
      (if gathered.length = 0 then 0
       else ((gathered.length : ℚ) -
           ((run_batch_backtest periods gathered).countP
             (fun r => !r.success) : ℚ)) / (gathered.length : ℚ)) := by
  have hl : (run_batch_backtest periods gathered).length =
      gathered.length := by
    rw [run_batch_backtest, List.length_map, List.length_zip, hlen]
    omega
  refine ⟨hl, ?_, ?_⟩
  · intro i h1 h2 h3
    rw [List.get_eq_getElem, List.get_eq_getElem, List.get_eq_getElem]
    have hz : i < (periods.zip gathered).length := by
      rw [List.length_zip]; omega
    rw [show (run_batch_backtest periods gathered)[i] =
        (fun pr : ((ℤ ⊕ String) × String) × Except String BacktestResult =>
          match pr.2 with
          | .error e => failedResult pr.1.1 pr.1.2 e
          | .ok r => r) ((periods.zip gathered)[i]) from List.getElem_map _]
    rw [show (periods.zip gathered)[i] =
      (periods[i], gathered[i]) from List.getElem_zip]
  · rw [get_summary]
    by_cases hnil : run_batch_backtest periods gathered = []
    · have h0 : gathered.length = 0 := by rw [← hl, hnil]; rfl
      simp [hnil, h0]
    · have h0 : ¬ gathered.length = 0 := by
        rw [← hl]
        intro hcon
        exact hnil (List.length_eq_zero.1 hcon)
      simp only [if_neg hnil, if_neg h0, hl]
      have hsum := countP_not_add (fun r => r.success)
        (run_batch_backtest periods gathered)
      have hcast : ((run_batch_backtest periods gathered).countP
            (fun r => r.success) : ℚ) +
          ((run_batch_backtest periods gathered).countP
            (fun r => !r.success) : ℚ) = (gathered.length : ℚ) := by
        rw [← hl]
        exact_mod_cast hsum
      rw [show ((run_batch_backtest periods gathered).countP
          (fun r => r.success) : ℚ) = (gathered.length : ℚ) -
          ((run_batch_backtest periods gathered).countP
            (fun r => !r.success) : ℚ) by linarith]

theorem batch_aggregation_C4_witness :
    (run_batch_backtest demoPeriods demoGathered).length = 2 ∧
    (get_summary (run_batch_backtest demoPeriods demoGathered)).success_rate
      = 1/2 := by
  have h := batch_aggregation_C4 demoPeriods demoGathered rfl
  refine ⟨h.1, ?_⟩
  rw [h.2.2, show (run_batch_backtest demoPeriods demoGathered).countP
      (fun r => !r.success) = 1 by with_unfolding_all rfl,
    show demoGathered.length = 2 from rfl]
  norm_num

/-- C8: for outcome lists with at least one success and duplicate-free
selections, the per-instrument consistency of a ticker equals the number
of succeeded outcomes whose selection contains the ticker divided by the
number of succeeded outcomes; failed outcomes count in neither the
numerator nor the denominator. -/
theorem consistency_C8 (results : List BacktestResult) (t : String)
    (h1 : ∃ r ∈ results, r.success = true)
    (h2 : ∀ r ∈ results, (r.top_stocks.map Prod.fst).Nodup) :
    0 < results.countP (·.success) ∧
    analyze_consistency t results =
      (results.countP (fun r => r.success &&
          decide (t ∈ r.top_stocks.map Prod.fst)) : ℚ) /
        (results.countP (·.success) : ℚ) := by
  constructor
  · rw [List.countP_pos_iff]
    obtain ⟨r, hr, hs⟩ := h1
    exact ⟨r, hr, hs⟩
  · have key : ∀ (rs : List BacktestResult),
        (∀ r ∈ rs, (r.top_stocks.map Prod.fst).Nodup) →
        analyze_appearances t rs = rs.countP (fun r => r.success &&
          decide (t ∈ r.top_stocks.map Prod.fst)) := by
      intro rs hnd
      induction rs with
      | nil => rfl
      | cons r rest ih =>
        rw [show analyze_appearances t (r :: rest) =
          (if r.success && !r.top_stocks.isEmpty then
            (r.top_stocks.map Prod.fst).count t else 0) +
            analyze_appearances t rest from rfl]
        rw [List.countP_cons,
          ih (fun x hx => hnd x (List.mem_cons_of_mem r hx))]
        have hr := hnd r (List.mem_cons_self r rest)
        cases hs : r.success
        · simp [hs]
        · cases he : r.top_stocks.isEmpty
          · by_cases hm : t ∈ r.top_stocks.map Prod.fst
            · rw [List.count_eq_one_of_mem hr hm]
              simp [hs, hm]
              omega
            · rw [List.count_eq_zero_of_not_mem hm]
              simp [hs, hm]
          · have hnil : r.top_stocks = [] := by
              rwa [List.isEmpty_iff] at he
            simp [hs, he, hnil]
    rw [analyze_consistency, key results h2]

theorem consistency_C8_witness :
    analyze_consistency "X" demoBatch = 1 ∧
    analyze_consistency "Y" demoBatch = 1 := by
  have hX := consistency_C8 demoBatch "X" (by with_unfolding_all decide)
    (by with_unfolding_all decide)
  have hY := consistency_C8 demoBatch "Y" (by with_unfolding_all decide)
    (by with_unfolding_all decide)
  constructor
  · rw [hX.2,
      show demoBatch.countP (fun r => r.success &&
        decide ("X" ∈ r.top_stocks.map Prod.fst)) = 1 by
          with_unfolding_all rfl,
      show demoBatch.countP (·.success) = 1 by with_unfolding_all rfl]
    norm_num
  · rw [hY.2,
      show demoBatch.countP (fun r => r.success &&
        decide ("Y" ∈ r.top_stocks.map Prod.fst)) = 1 by
          with_unfolding_all rfl,
      show demoBatch.countP (·.success) = 1 by with_unfolding_all rfl]
    norm_num

theorem tdiv_two_eq (n : ℤ) :
    Int.tdiv n 2 = if 0 ≤ n then n / 2 else -((-n) / 2) := by
  by_cases h : 0 ≤ n
  · rw [if_pos h]
    exact Int.tdiv_eq_ediv h (by norm_num)
  · rw [if_neg h]
    have h2 : Int.tdiv (-(-n)) 2 = -(Int.tdiv (-n) 2) :=
      Int.neg_tdiv (-n) 2
    rw [show -(-n) = n by ring] at h2
    rw [h2, Int.tdiv_eq_ediv (by omega : (0:ℤ) ≤ -n) (by norm_num)]

theorem tdiv_two_mono {a b : ℤ} (h : a ≤ b) :
    Int.tdiv a 2 ≤ Int.tdiv b 2 := by
  rw [tdiv_two_eq, tdiv_two_eq]
  split_ifs <;> omega

theorem stepFun_ge_all (v dflt : ℕ) (ts : List (ℤ × ℕ)) (x : ℤ)
    (hall : ∀ p ∈ ts, v ≤ p.2) (hd : v ≤ dflt) :
    v ≤ stepFun ts dflt x := by
  induction ts with
  | nil => exact hd
  | cons p rest ih =>
    obtain ⟨t, w⟩ := p
    rw [show stepFun ((t, w) :: rest) dflt x =
      (if x ≤ t then w else stepFun rest dflt x) from rfl]
    by_cases hx : x ≤ t
    · rw [if_pos hx]
      exact hall (t, w) (List.mem_cons_self _ _)
    · rw [if_neg hx]
      exact ih (fun q hq => hall q (List.mem_cons_of_mem _ hq))

theorem stepFun_mono (ts : List (ℤ × ℕ)) (dflt : ℕ) {x y : ℤ}
    (hxy : x ≤ y)
    (hsorted : (ts.map Prod.snd).Pairwise (· ≤ ·))
    (hd : ∀ p ∈ ts, p.2 ≤ dflt) :
    stepFun ts dflt x ≤ stepFun ts dflt y := by
  induction ts with
  | nil => exact le_refl _
  | cons p rest ih =>
    obtain ⟨t, v⟩ := p
    rw [show stepFun ((t, v) :: rest) dflt x =
        (if x ≤ t then v else stepFun rest dflt x) from rfl,
      show stepFun ((t, v) :: rest) dflt y =
        (if y ≤ t then v else stepFun rest dflt y) from rfl]
    by_cases hx : x ≤ t
    · rw [if_pos hx]
      by_cases hy : y ≤ t
      · rw [if_pos hy]
      · rw [if_neg hy]
        refine stepFun_ge_all v dflt rest y (fun q hq => ?_) ?_
        · exact (List.pairwise_cons.1 hsorted).1 q.2
            (List.mem_map_of_mem Prod.snd hq)
        · exact hd (t, v) (List.mem_cons_self _ _)
    · rw [if_neg hx, if_neg (by omega : ¬ y ≤ t)]
      exact ih (List.pairwise_cons.1 hsorted).2
        (fun q hq => hd q (List.mem_cons_of_mem _ hq))

theorem periodRangeDays_calc (n : ℤ) :
    periodRangeDays (calculate_period n) =
      stepFun [(5, 5), (30, 30), (90, 90), (180, 180), (365, 365),
        (730, 730), (1095, 1825), (1825, 1825), (3650, 3650)] 100000
        (Int.tdiv (3 * n) 2) := by
  simp only [calculate_period, stepFun]
  split_ifs <;> with_unfolding_all rfl

/-- C9: the provider period chosen from `lookback_days` denotes a
monotonically non-decreasing history range (Python `int(n * 1.5)` is
truncation toward zero, which is monotone, and the threshold chain maps
larger requirements to longer ranges), and in days mode every
`lookback_days ≥ 365` makes the fetch request `period="max"` — all
available history. -/
theorem period_monotonic_C9 :
    (∀ a b : ℤ, a ≤ b →
      periodRangeDays (calculate_period a) ≤
        periodRangeDays (calculate_period b)) ∧
    (∀ (period_type : String) (start_date : Option ℤ)
      (lookback_days : ℤ) (period : String),
      ¬ (period_type = "date" ∧ start_date.isSome) →
      365 ≤ lookback_days →
      fetch_single_stock_query period_type start_date lookback_days period
        = .periodQuery "max") := by
  constructor
  · intro a b hab
    rw [periodRangeDays_calc, periodRangeDays_calc]
    exact stepFun_mono _ _ (tdiv_two_mono (by omega)) (by decide)
      (by decide)
  · intro period_type start_date lookback_days period hnot h365
    rw [fetch_single_stock_query, dif_neg hnot, if_pos h365]

theorem period_monotonic_C9_witness :
    periodRangeDays (calculate_period 10) ≤
      periodRangeDays (calculate_period 400) ∧
    fetch_single_stock_query "days" none 365 "1y" = .periodQuery "max" :=
  ⟨period_monotonic_C9.1 10 400 (by norm_num),
   period_monotonic_C9.2 "days" none 365 "1y" (by simp) (by norm_num)⟩
